import Mathlib

/-!
# Verification of the `trp` transaction processor core

A shallow embedding of `src/message.rs` and `src/processor.rs`:
the `Message` event type, the per-account state machine
(`Account::<Running>::apply`) together with its transaction history, and the
router (`processor::start`) that fans a multi-client message stream out to
per-client actors.

Modelling choices:
* Rust `f32` amounts are embedded as exact rationals (`ℚ`); the spec states
  its arithmetic claims up to floating/decimal tolerance, i.e. over the exact
  field operations the code performs.
* `u16` client ids and `u32` transaction ids are embedded as `Nat`; the code
  only ever compares them for equality.
* `std::collections::HashMap` is embedded as an association list with
  insert-or-replace semantics (`alistInsert`) and first-match lookup
  (`alistFind`); a `HashMap` holds at most one entry per key, which the
  association lists built by `alistInsert` also satisfy.
* The actor loop applies each message with
  `apply(..).unwrap_or_else(|err| eprintln!(..))`, i.e. an erroring message
  leaves the state unchanged and processing continues; `applyOrKeep` embeds
  exactly this.
-/

/-- Association-list lookup: first entry with the given key
(embeds `HashMap::get`). -/
def alistFind {α : Type} : List (Nat × α) → Nat → Option α
  | [], _ => none
  | (k, v) :: rest, key => if k = key then some v else alistFind rest key

/-- Association-list insert-or-replace (embeds `HashMap::insert` as observed
through lookup: the entry for the key is replaced in place if present,
appended otherwise). -/
def alistInsert {α : Type} : List (Nat × α) → Nat → α → List (Nat × α)
  | [], key, v => [(key, v)]
  | (k, w) :: rest, key, v =>
    if k = key then (key, v) :: rest else (k, w) :: alistInsert rest key v

/-- `message.rs`: the `Message` enum. -/
inductive Message where
  | deposit (client : Nat) (tx : Nat) (amount : ℚ)
  | withdraw (client : Nat) (tx : Nat) (amount : ℚ)
  | dispute (client : Nat) (tx : Nat)
  | resolve (client : Nat) (tx : Nat)
  | chargeback (client : Nat) (tx : Nat)
  deriving DecidableEq, Repr

/-- `Message::client_id`. -/
def Message.client_id : Message → Nat
  | .deposit client _ _ => client
  | .withdraw client _ _ => client
  | .dispute client _ => client
  | .resolve client _ => client
  | .chargeback client _ => client

/-- `Message::transaction_id`. -/
def Message.transaction_id : Message → Nat
  | .deposit _ tx _ => tx
  | .withdraw _ tx _ => tx
  | .dispute _ tx => tx
  | .resolve _ tx => tx
  | .chargeback _ tx => tx

/-- `Message::is_deposit`. -/
def Message.is_deposit : Message → Bool
  | .deposit _ _ _ => true
  | _ => false

/-- `processor.rs`: the `Transaction` history-record enum (amount plus
status `Deposited`/`Disputed`/`Reversed`). -/
inductive Transaction where
  | deposited (amount : ℚ)
  | disputed (amount : ℚ)
  | reversed (amount : ℚ)
  deriving DecidableEq, Repr

/-- `Transaction::is_deposited`. -/
def Transaction.is_deposited : Transaction → Bool
  | .deposited _ => true
  | _ => false

/-- `Transaction::is_disputed`. -/
def Transaction.is_disputed : Transaction → Bool
  | .disputed _ => true
  | _ => false

/-- `Transaction::amount`. -/
def Transaction.amount : Transaction → ℚ
  | .deposited x => x
  | .disputed x => x
  | .reversed x => x

/-- `type TXHistory = HashMap<u32, Transaction>`. -/
abbrev TXHistory : Type := List (Nat × Transaction)

/-- `processor.rs`: the `ProcessingError` enum. -/
inductive ProcessingError where
  | insufficientFunds
  | accountLocked
  deriving DecidableEq, Repr

/-- `processor.rs`: the `Account` struct. The Rust typestate parameter
(`Ready`/`Running`) is a zero-sized marker with no effect on the fields and
is dropped in the embedding. -/
structure Account where
  client : Nat
  available : ℚ
  held : ℚ
  total : ℚ
  locked : Bool
  deriving DecidableEq, Repr

/-- `Account::<Ready>::new`: fresh zero-balance unlocked account. -/
def Account.new (client : Nat) : Account :=
  { client := client, available := 0, held := 0, total := 0, locked := false }

/-- `Account::<Running>::apply`: applies one message to the account and its
transaction history, returning the updated pair or a `ProcessingError`. -/
def Account.apply (a : Account) (tx_history : TXHistory) (message : Message) :
    Except ProcessingError (Account × TXHistory) :=
  if a.locked then .error .accountLocked
  else
    match message with
    | .deposit _ tx amount =>
        .ok ({ a with available := a.available + amount,
                      total := a.total + amount },
             alistInsert tx_history tx (.deposited amount))
    | .withdraw _ _ amount =>
        if a.available < amount then .error .insufficientFunds
        else
          .ok ({ a with available := a.available - amount,
                        total := a.total - amount },
               tx_history)
    | .dispute _ tx =>
        match alistFind tx_history tx with
        | some existing =>
            if existing.is_deposited ∧ a.available ≥ existing.amount then
              .ok ({ a with available := a.available - existing.amount,
                            held := a.held + existing.amount },
                   alistInsert tx_history tx (.disputed existing.amount))
            else .ok (a, tx_history)
        | none => .ok (a, tx_history)
    | .resolve _ tx =>
        match alistFind tx_history tx with
        | some existing =>
            if existing.is_disputed then
              .ok ({ a with available := a.available + existing.amount,
                            held := a.held - existing.amount },
                   alistInsert tx_history tx (.deposited existing.amount))
            else .ok (a, tx_history)
        | none => .ok (a, tx_history)
    | .chargeback _ tx =>
        match alistFind tx_history tx with
        | some existing =>
            if existing.is_disputed then
              .ok ({ a with held := a.held - existing.amount,
                            total := a.total - existing.amount,
                            locked := true },
                   alistInsert tx_history tx (.reversed existing.amount))
            else .ok (a, tx_history)
        | none => .ok (a, tx_history)

/-- The actor loop body: `account.apply(&msg, &mut history).unwrap_or_else(..)`
— an erroring message is logged and discarded, leaving account and history
unchanged. -/
def applyOrKeep (s : Account × TXHistory) (m : Message) : Account × TXHistory :=
  match s.1.apply s.2 m with
  | .ok s' => s'
  | .error _ => s

/-- `processor::should_create_account`. -/
def should_create_account (msg : Message) : Bool :=
  msg.is_deposit

/-- Per-client actor state as held by the router-and-actor system: the
account plus its private history. -/
abbrev ClientState : Type := Account × TXHistory

/-- One router iteration of `processor::start` together with the actor it
forwards to: for an unknown client id, a non-deposit message is dropped,
while a deposit first registers a fresh account; then the message is
delivered to the client's actor, which applies it. -/
def routerStep (clients : List (Nat × ClientState)) (m : Message) :
    List (Nat × ClientState) :=
  match alistFind clients m.client_id with
  | none =>
      if should_create_account m then
        alistInsert clients m.client_id
          (applyOrKeep (Account.new m.client_id, ([] : TXHistory)) m)
      else clients
  | some s => alistInsert clients m.client_id (applyOrKeep s m)

/-- `processor::start` run to stream exhaustion: the directory of per-client
final states after routing every message of the input stream in order. -/
def routerRun (msgs : List Message) : List (Nat × ClientState) :=
  msgs.foldl routerStep []

/-- Sequential left-fold of the actor loop over one client's own message
subsequence, as the spec describes the per-client semantics: messages before
the client's first deposit are dropped (no account exists yet); at the first
deposit a fresh zero-balance account is created and every message from that
point on is applied in order. -/
def clientFold (c : Nat) (ms : List Message) : Option ClientState :=
  match ms.dropWhile (fun m => !m.is_deposit) with
  | [] => none
  | ms' => some (ms'.foldl applyOrKeep (Account.new c, ([] : TXHistory)))

/-- Per-client view of the router-and-actor pipeline: one client's message
subsequence processed against an optional actor state — no state until the
first deposit (earlier messages are dropped, as the router does), then the
actor loop applied message by message. -/
def clientRun (c : Nat) : Option ClientState → List Message → Option ClientState
  | s, [] => s
  | some s, m :: rest => clientRun c (some (applyOrKeep s m)) rest
  | none, m :: rest =>
      if m.is_deposit then
        clientRun c (some (applyOrKeep (Account.new c, ([] : TXHistory)) m)) rest
      else clientRun c none rest

example :
    applyOrKeep (Account.new 42, ([] : TXHistory)) (.deposit 42 123 1) =
      ({ client := 42, available := 1, held := 0, total := 1, locked := false },
       [(123, .deposited 1)]) := by
  norm_num [applyOrKeep, Account.apply, Account.new, alistInsert]

example :
    routerRun [.deposit 1 10 5, .withdraw 2 11 3, .deposit 2 12 7] =
      [(1, ({ client := 1, available := 5, held := 0, total := 5, locked := false },
            [(10, .deposited 5)])),
       (2, ({ client := 2, available := 7, held := 0, total := 7, locked := false },
            [(12, .deposited 7)]))] := by
  norm_num [routerRun, routerStep, applyOrKeep, Account.apply, Account.new,
    alistFind, alistInsert, should_create_account, Message.is_deposit,
    Message.client_id]

/-! ## Association-list lemmas -/

theorem alistFind_alistInsert_self {α : Type} (l : List (Nat × α)) (k : Nat) (v : α) :
    alistFind (alistInsert l k v) k = some v := by
  induction l with
  | nil => simp [alistInsert, alistFind]
  | cons p rest ih =>
    obtain ⟨k', w⟩ := p
    by_cases hk : k' = k <;> simp [alistInsert, alistFind, hk, ih]

theorem alistFind_alistInsert_ne {α : Type} (l : List (Nat × α)) (k k' : Nat) (v : α)
    (hne : k ≠ k') : alistFind (alistInsert l k v) k' = alistFind l k' := by
  induction l with
  | nil =>
    simp only [alistInsert, alistFind]
    rw [if_neg hne]
  | cons p rest ih =>
    obtain ⟨k'', w⟩ := p
    by_cases hk : k'' = k
    · subst hk
      simp only [alistInsert, if_pos rfl, alistFind]
      rw [if_neg hne, if_neg hne]
    · simp only [alistInsert, if_neg hk, alistFind]
      by_cases hk' : k'' = k'
      · rw [if_pos hk', if_pos hk']
      · rw [if_neg hk', if_neg hk', ih]

/-! ## Branch characterizations of `Account::apply` -/

theorem apply_locked (a : Account) (h : TXHistory) (m : Message)
    (hl : a.locked = true) : a.apply h m = .error .accountLocked := by
  unfold Account.apply
  rw [if_pos hl]

theorem apply_deposit (a : Account) (h : TXHistory) (c tx : Nat) (amt : ℚ)
    (hl : a.locked = false) :
    a.apply h (.deposit c tx amt) =
      .ok ({ a with available := a.available + amt, total := a.total + amt },
           alistInsert h tx (.deposited amt)) := by
  unfold Account.apply
  simp [hl]

theorem apply_withdraw_insufficient (a : Account) (h : TXHistory) (c tx : Nat)
    (amt : ℚ) (hl : a.locked = false) (hlt : a.available < amt) :
    a.apply h (.withdraw c tx amt) = .error .insufficientFunds := by
  unfold Account.apply
  simp [hl, hlt]

theorem apply_withdraw_ok (a : Account) (h : TXHistory) (c tx : Nat)
    (amt : ℚ) (hl : a.locked = false) (hge : ¬a.available < amt) :
    a.apply h (.withdraw c tx amt) =
      .ok ({ a with available := a.available - amt, total := a.total - amt }, h) := by
  unfold Account.apply
  simp [hl, hge]

theorem apply_dispute_hit (a : Account) (h : TXHistory) (c tx : Nat)
    (r : Transaction) (hl : a.locked = false) (hf : alistFind h tx = some r)
    (hd : r.is_deposited = true) (hge : a.available ≥ r.amount) :
    a.apply h (.dispute c tx) =
      .ok ({ a with available := a.available - r.amount, held := a.held + r.amount },
           alistInsert h tx (.disputed r.amount)) := by
  unfold Account.apply
  simp [hl, hf, hd, hge]

theorem apply_dispute_none (a : Account) (h : TXHistory) (c tx : Nat)
    (hl : a.locked = false) (hf : alistFind h tx = none) :
    a.apply h (.dispute c tx) = .ok (a, h) := by
  unfold Account.apply
  simp [hl, hf]

theorem apply_dispute_guard_fail (a : Account) (h : TXHistory) (c tx : Nat)
    (r : Transaction) (hl : a.locked = false) (hf : alistFind h tx = some r)
    (hg : ¬(r.is_deposited = true ∧ a.available ≥ r.amount)) :
    a.apply h (.dispute c tx) = .ok (a, h) := by
  unfold Account.apply
  simp [hl, hf, hg]

theorem apply_resolve_hit (a : Account) (h : TXHistory) (c tx : Nat)
    (r : Transaction) (hl : a.locked = false) (hf : alistFind h tx = some r)
    (hd : r.is_disputed = true) :
    a.apply h (.resolve c tx) =
      .ok ({ a with available := a.available + r.amount, held := a.held - r.amount },
           alistInsert h tx (.deposited r.amount)) := by
  unfold Account.apply
  simp [hl, hf, hd]

theorem apply_resolve_none (a : Account) (h : TXHistory) (c tx : Nat)
    (hl : a.locked = false) (hf : alistFind h tx = none) :
    a.apply h (.resolve c tx) = .ok (a, h) := by
  unfold Account.apply
  simp [hl, hf]

theorem apply_resolve_guard_fail (a : Account) (h : TXHistory) (c tx : Nat)
    (r : Transaction) (hl : a.locked = false) (hf : alistFind h tx = some r)
    (hd : r.is_disputed = false) :
    a.apply h (.resolve c tx) = .ok (a, h) := by
  unfold Account.apply
  simp [hl, hf, hd]

theorem apply_chargeback_hit (a : Account) (h : TXHistory) (c tx : Nat)
    (r : Transaction) (hl : a.locked = false) (hf : alistFind h tx = some r)
    (hd : r.is_disputed = true) :
    a.apply h (.chargeback c tx) =
      .ok ({ a with held := a.held - r.amount, total := a.total - r.amount,
                    locked := true },
           alistInsert h tx (.reversed r.amount)) := by
  unfold Account.apply
  simp [hl, hf, hd]

theorem apply_chargeback_none (a : Account) (h : TXHistory) (c tx : Nat)
    (hl : a.locked = false) (hf : alistFind h tx = none) :
    a.apply h (.chargeback c tx) = .ok (a, h) := by
  unfold Account.apply
  simp [hl, hf]

theorem apply_chargeback_guard_fail (a : Account) (h : TXHistory) (c tx : Nat)
    (r : Transaction) (hl : a.locked = false) (hf : alistFind h tx = some r)
    (hd : r.is_disputed = false) :
    a.apply h (.chargeback c tx) = .ok (a, h) := by
  unfold Account.apply
  simp [hl, hf, hd]

/-! ## Step lemmas for the account state machine -/

/-- One actor-loop step preserves `available + held = total`. -/
theorem applyOrKeep_inv (a : Account) (h : TXHistory) (m : Message)
    (hinv : a.available + a.held = a.total) :
    (applyOrKeep (a, h) m).1.available + (applyOrKeep (a, h) m).1.held
      = (applyOrKeep (a, h) m).1.total := by
  by_cases hl : a.locked = true
  · simp [applyOrKeep, apply_locked a h m hl, hinv]
  · replace hl : a.locked = false := by simpa using hl
    cases m with
    | deposit c tx amt =>
      simp [applyOrKeep, apply_deposit a h c tx amt hl]
      linarith
    | withdraw c tx amt =>
      by_cases hw : a.available < amt
      · simp [applyOrKeep, apply_withdraw_insufficient a h c tx amt hl hw, hinv]
      · simp [applyOrKeep, apply_withdraw_ok a h c tx amt hl hw]
        linarith
    | dispute c tx =>
      cases hf : alistFind h tx with
      | none => simp [applyOrKeep, apply_dispute_none a h c tx hl hf, hinv]
      | some r =>
        by_cases hg : r.is_deposited = true ∧ a.available ≥ r.amount
        · simp [applyOrKeep, apply_dispute_hit a h c tx r hl hf hg.1 hg.2]
          linarith
        · simp [applyOrKeep, apply_dispute_guard_fail a h c tx r hl hf hg, hinv]
    | resolve c tx =>
      cases hf : alistFind h tx with
      | none => simp [applyOrKeep, apply_resolve_none a h c tx hl hf, hinv]
      | some r =>
        by_cases hd : r.is_disputed = true
        · simp [applyOrKeep, apply_resolve_hit a h c tx r hl hf hd]
          linarith
        · replace hd : r.is_disputed = false := by simpa using hd
          simp [applyOrKeep, apply_resolve_guard_fail a h c tx r hl hf hd, hinv]
    | chargeback c tx =>
      cases hf : alistFind h tx with
      | none => simp [applyOrKeep, apply_chargeback_none a h c tx hl hf, hinv]
      | some r =>
        by_cases hd : r.is_disputed = true
        · simp [applyOrKeep, apply_chargeback_hit a h c tx r hl hf hd]
          linarith
        · replace hd : r.is_disputed = false := by simpa using hd
          simp [applyOrKeep, apply_chargeback_guard_fail a h c tx r hl hf hd, hinv]

/-- Folding the actor loop preserves `available + held = total`. -/
theorem foldl_applyOrKeep_inv (ms : List Message) (s : Account × TXHistory)
    (hinv : s.1.available + s.1.held = s.1.total) :
    (ms.foldl applyOrKeep s).1.available + (ms.foldl applyOrKeep s).1.held
      = (ms.foldl applyOrKeep s).1.total := by
  induction ms generalizing s with
  | nil => exact hinv
  | cons m rest ih =>
    exact ih (applyOrKeep s m) (applyOrKeep_inv s.1 s.2 m hinv)

/-! ## Claim theorems -/

/-- C1: every account state reachable by folding `Account::apply` (with exact
arithmetic) over any message sequence from a fresh zero-balance account
satisfies `available + held = total`, and every single actor-loop step —
deposit, withdraw, dispute, resolve or chargeback, whether it succeeds,
errors, or no-ops — preserves that equation. -/
theorem reachable_available_add_held_eq_total :
    (∀ (a : Account) (h : TXHistory) (m : Message),
        a.available + a.held = a.total →
        (applyOrKeep (a, h) m).1.available + (applyOrKeep (a, h) m).1.held
          = (applyOrKeep (a, h) m).1.total)
    ∧ ∀ (c : Nat) (ms : List Message),
        (ms.foldl applyOrKeep (Account.new c, [])).1.available
          + (ms.foldl applyOrKeep (Account.new c, [])).1.held
          = (ms.foldl applyOrKeep (Account.new c, [])).1.total := by
  constructor
  · exact applyOrKeep_inv
  · intro c ms
    exact foldl_applyOrKeep_inv ms (Account.new c, []) (by simp [Account.new])

/-- Witness for C1: the step-preservation part applied at a concrete account,
history and message. -/
theorem reachable_available_add_held_eq_total_witness :
    ((3 : ℚ) + 1 = 4) ∧
    (applyOrKeep ({ client := 1, available := 3, held := 1, total := 4,
                    locked := false }, []) (.deposit 1 9 2)).1.available
      + (applyOrKeep ({ client := 1, available := 3, held := 1, total := 4,
                        locked := false }, []) (.deposit 1 9 2)).1.held
      = (applyOrKeep ({ client := 1, available := 3, held := 1, total := 4,
                        locked := false }, []) (.deposit 1 9 2)).1.total :=
  ⟨by norm_num,
   reachable_available_add_held_eq_total.1
     { client := 1, available := 3, held := 1, total := 4, locked := false }
     [] (.deposit 1 9 2) (by norm_num)⟩

/-- C3: on a locked account every message — of any of the five kinds — fails
with `AccountLocked`, leaving account fields and transaction history
unchanged; hence `locked` is monotone across the actor loop. -/
theorem locked_rejects_all_and_is_monotone :
    ∀ (a : Account) (h : TXHistory) (m : Message), a.locked = true →
      a.apply h m = .error .accountLocked
      ∧ applyOrKeep (a, h) m = (a, h)
      ∧ (applyOrKeep (a, h) m).1.locked = true := by
  intro a h m hl
  refine ⟨apply_locked a h m hl, ?_, ?_⟩
  · simp [applyOrKeep, apply_locked a h m hl]
  · simp [applyOrKeep, apply_locked a h m hl, hl]

/-- Witness for C3 at a concrete locked account and a withdraw message. -/
theorem locked_rejects_all_and_is_monotone_witness :
    ({ client := 2, available := 5, held := 0, total := 5,
       locked := true } : Account).locked = true
    ∧ (Account.apply { client := 2, available := 5, held := 0, total := 5,
                       locked := true } [] (.withdraw 2 7 1)
        = .error .accountLocked
      ∧ applyOrKeep ({ client := 2, available := 5, held := 0, total := 5,
                       locked := true }, []) (.withdraw 2 7 1)
        = ({ client := 2, available := 5, held := 0, total := 5,
             locked := true }, [])
      ∧ (applyOrKeep ({ client := 2, available := 5, held := 0, total := 5,
                        locked := true }, []) (.withdraw 2 7 1)).1.locked = true) :=
  ⟨rfl, locked_rejects_all_and_is_monotone _ [] (.withdraw 2 7 1) rfl⟩

/-- C4: on an unlocked account, `Withdraw(amount)` errors with
`InsufficientFunds` exactly when `available < amount`, in which case the
actor loop leaves account and history unchanged; otherwise it succeeds,
decreasing `available` and `total` by `amount` while `held`, `locked` and the
history stay as they were. -/
theorem withdraw_insufficient_iff_and_effect :
    ∀ (a : Account) (h : TXHistory) (c tx : Nat) (amt : ℚ), a.locked = false →
      (a.apply h (.withdraw c tx amt) = .error .insufficientFunds
        ↔ a.available < amt)
      ∧ (a.available < amt → applyOrKeep (a, h) (.withdraw c tx amt) = (a, h))
      ∧ (¬a.available < amt →
          a.apply h (.withdraw c tx amt) =
            .ok ({ a with available := a.available - amt,
                          total := a.total - amt }, h)) := by
  intro a h c tx amt hl
  refine ⟨⟨?_, fun hlt => apply_withdraw_insufficient a h c tx amt hl hlt⟩, ?_, ?_⟩
  · intro he
    by_contra hge
    rw [apply_withdraw_ok a h c tx amt hl hge] at he
    simp at he
  · intro hlt
    simp [applyOrKeep, apply_withdraw_insufficient a h c tx amt hl hlt]
  · exact fun hge => apply_withdraw_ok a h c tx amt hl hge

/-- Witness for C4: the spec's own example — balance 1.00, withdrawal of
3.00 — fails with `InsufficientFunds` and leaves the state untouched. -/
theorem withdraw_insufficient_iff_and_effect_witness :
    ({ client := 42, available := 1, held := 0, total := 1,
       locked := false } : Account).locked = false
    ∧ ((Account.apply { client := 42, available := 1, held := 0, total := 1,
                        locked := false } [(123, .deposited 1)] (.withdraw 42 144 3)
          = .error .insufficientFunds ↔ (1 : ℚ) < 3)
      ∧ ((1 : ℚ) < 3 →
          applyOrKeep ({ client := 42, available := 1, held := 0, total := 1,
                         locked := false }, [(123, .deposited 1)]) (.withdraw 42 144 3)
            = ({ client := 42, available := 1, held := 0, total := 1,
                 locked := false }, [(123, .deposited 1)]))
      ∧ (¬(1 : ℚ) < 3 →
          Account.apply { client := 42, available := 1, held := 0, total := 1,
                          locked := false } [(123, .deposited 1)] (.withdraw 42 144 3)
            = .ok ({ client := 42, available := 1 - 3, held := 0, total := 1 - 3,
                     locked := false }, [(123, .deposited 1)]))) :=
  ⟨rfl, withdraw_insufficient_iff_and_effect
    { client := 42, available := 1, held := 0, total := 1, locked := false }
    [(123, .deposited 1)] 42 144 3 rfl⟩

/-- C5: on an unlocked account, `Dispute(tx)` proceeds exactly when the
history holds a `Deposited` record for `tx` whose amount is at most
`available`; on success it moves that amount from `available` to `held` and
marks the record `Disputed`; a failed lookup or guard returns `Ok` and
changes nothing. -/
theorem dispute_guard_and_effect :
    ∀ (a : Account) (h : TXHistory) (c tx : Nat), a.locked = false →
      (∀ r, alistFind h tx = some r → r.is_deposited = true →
          a.available ≥ r.amount →
          a.apply h (.dispute c tx) =
            .ok ({ a with available := a.available - r.amount,
                          held := a.held + r.amount },
                 alistInsert h tx (.disputed r.amount))
          ∧ alistFind (alistInsert h tx (.disputed r.amount)) tx
              = some (.disputed r.amount))
      ∧ (alistFind h tx = none → a.apply h (.dispute c tx) = .ok (a, h))
      ∧ (∀ r, alistFind h tx = some r →
          ¬(r.is_deposited = true ∧ a.available ≥ r.amount) →
          a.apply h (.dispute c tx) = .ok (a, h)) := by
  intro a h c tx hl
  refine ⟨fun r hf hd hge => ⟨apply_dispute_hit a h c tx r hl hf hd hge,
            alistFind_alistInsert_self h tx (.disputed r.amount)⟩,
          fun hf => apply_dispute_none a h c tx hl hf,
          fun r hf hg => apply_dispute_guard_fail a h c tx r hl hf hg⟩

/-- Witness for C5: the spec's example — after `Deposit(123, 1.00)`, a
`Dispute(123)` moves 1.00 from available to held and marks the record
disputed. -/
theorem dispute_guard_and_effect_witness :
    ({ client := 42, available := 1, held := 0, total := 1,
       locked := false } : Account).locked = false
    ∧ alistFind [(123, Transaction.deposited 1)] 123 = some (.deposited 1)
    ∧ Transaction.is_deposited (.deposited 1) = true
    ∧ ({ client := 42, available := 1, held := 0, total := 1,
         locked := false } : Account).available ≥ Transaction.amount (.deposited 1)
    ∧ Account.apply { client := 42, available := 1, held := 0, total := 1,
                      locked := false } [(123, .deposited 1)] (.dispute 42 123)
        = .ok ({ client := 42, available := 1 - Transaction.amount (.deposited 1),
                 held := 0 + Transaction.amount (.deposited 1), total := 1,
                 locked := false },
               alistInsert [(123, .deposited 1)] 123
                 (.disputed (Transaction.amount (.deposited 1)))) := by
  refine ⟨rfl, by simp [alistFind], rfl, by norm_num [Transaction.amount], ?_⟩
  exact ((dispute_guard_and_effect
    { client := 42, available := 1, held := 0, total := 1, locked := false }
    [(123, .deposited 1)] 42 123 rfl).1 (.deposited 1)
      (by simp [alistFind]) rfl (by norm_num [Transaction.amount])).1

/-- C6: on an unlocked account, `Chargeback(tx)` proceeds exactly when the
history holds a `Disputed` record for `tx`: it removes the amount from `held`
and `total`, marks the record `Reversed`, and locks the account; otherwise it
is a no-op. The spec's example `Deposit(123,1)` → `Dispute(123)` →
`Chargeback(123)` ends with all balances zero, the account locked, and
record 123 `Reversed`. -/
theorem chargeback_guard_effect_and_example :
    (∀ (a : Account) (h : TXHistory) (c tx : Nat), a.locked = false →
      (∀ r, alistFind h tx = some r → r.is_disputed = true →
          a.apply h (.chargeback c tx) =
            .ok ({ a with held := a.held - r.amount, total := a.total - r.amount,
                          locked := true },
                 alistInsert h tx (.reversed r.amount)))
      ∧ (alistFind h tx = none → a.apply h (.chargeback c tx) = .ok (a, h))
      ∧ (∀ r, alistFind h tx = some r → r.is_disputed = false →
          a.apply h (.chargeback c tx) = .ok (a, h)))
    ∧ [Message.deposit 9 123 1, .dispute 9 123, .chargeback 9 123].foldl
        applyOrKeep (Account.new 9, []) =
      ({ client := 9, available := 0, held := 0, total := 0, locked := true },
       [(123, .reversed 1)]) := by
  constructor
  · intro a h c tx hl
    exact ⟨fun r hf hd => apply_chargeback_hit a h c tx r hl hf hd,
           fun hf => apply_chargeback_none a h c tx hl hf,
           fun r hf hd => apply_chargeback_guard_fail a h c tx r hl hf hd⟩
  · norm_num [List.foldl, applyOrKeep, Account.apply, Account.new, alistFind,
      alistInsert, Transaction.is_deposited, Transaction.is_disputed,
      Transaction.amount]

/-- Witness for C6: the guard part applied at a concrete disputed record. -/
theorem chargeback_guard_effect_and_example_witness :
    ({ client := 9, available := 0, held := 1, total := 1,
       locked := false } : Account).locked = false
    ∧ alistFind [(123, Transaction.disputed 1)] 123 = some (.disputed 1)
    ∧ Transaction.is_disputed (.disputed 1) = true
    ∧ Account.apply { client := 9, available := 0, held := 1, total := 1,
                      locked := false } [(123, .disputed 1)] (.chargeback 9 123)
        = .ok ({ client := 9, available := 0,
                 held := 1 - Transaction.amount (.disputed 1),
                 total := 1 - Transaction.amount (.disputed 1), locked := true },
               alistInsert [(123, .disputed 1)] 123
                 (.reversed (Transaction.amount (.disputed 1)))) :=
  ⟨rfl, by simp [alistFind], rfl,
   (chargeback_guard_effect_and_example.1
     { client := 9, available := 0, held := 1, total := 1, locked := false }
     [(123, .disputed 1)] 9 123 rfl).1 (.disputed 1) (by simp [alistFind]) rfl⟩

/-- C7: on an unlocked account, `Resolve(tx)` proceeds exactly when record
`tx` is `Disputed`, moving the amount from `held` back to `available` and
restoring status `Deposited`; hence a `Dispute(tx)` followed by `Resolve(tx)`
restores the original account fields and record status; the spec's example
`Deposit(123,1)` → `Dispute(123)` → `Resolve(123)` ends with available 1,
held 0, total 1 and record 123 `Deposited`. Absent or non-`Disputed` records
make `Resolve` a no-op. -/
theorem resolve_undoes_dispute :
    (∀ (a : Account) (h : TXHistory) (c tx : Nat), a.locked = false →
      (∀ r, alistFind h tx = some r → r.is_disputed = true →
          a.apply h (.resolve c tx) =
            .ok ({ a with available := a.available + r.amount,
                          held := a.held - r.amount },
                 alistInsert h tx (.deposited r.amount)))
      ∧ (alistFind h tx = none → a.apply h (.resolve c tx) = .ok (a, h))
      ∧ (∀ r, alistFind h tx = some r → r.is_disputed = false →
          a.apply h (.resolve c tx) = .ok (a, h)))
    ∧ (∀ (a : Account) (h : TXHistory) (c tx : Nat) (amt : ℚ),
        a.locked = false → alistFind h tx = some (.deposited amt) →
        a.available ≥ amt →
          (applyOrKeep (applyOrKeep (a, h) (.dispute c tx)) (.resolve c tx)).1 = a
          ∧ alistFind (applyOrKeep (applyOrKeep (a, h) (.dispute c tx))
                (.resolve c tx)).2 tx = some (.deposited amt))
    ∧ [Message.deposit 9 123 1, .dispute 9 123, .resolve 9 123].foldl
        applyOrKeep (Account.new 9, []) =
      ({ client := 9, available := 1, held := 0, total := 1, locked := false },
       [(123, .deposited 1)]) := by
  refine ⟨?_, ?_, ?_⟩
  · intro a h c tx hl
    exact ⟨fun r hf hd => apply_resolve_hit a h c tx r hl hf hd,
           fun hf => apply_resolve_none a h c tx hl hf,
           fun r hf hd => apply_resolve_guard_fail a h c tx r hl hf hd⟩
  · intro a h c tx amt hl hf hge
    have hamt : Transaction.amount (.deposited amt) = amt := rfl
    have hd1 := apply_dispute_hit a h c tx (.deposited amt) hl hf rfl
      (by rw [hamt]; exact hge)
    rw [hamt] at hd1
    have hs1 : applyOrKeep (a, h) (.dispute c tx) =
        ({ a with available := a.available - amt, held := a.held + amt },
         alistInsert h tx (.disputed amt)) := by
      simp [applyOrKeep, hd1]
    have hf1 : alistFind (alistInsert h tx (.disputed amt)) tx
        = some (.disputed amt) := alistFind_alistInsert_self h tx _
    have hd2 := apply_resolve_hit
      { a with available := a.available - amt, held := a.held + amt }
      (alistInsert h tx (.disputed amt)) c tx (.disputed amt)
      (by simpa using hl) hf1 rfl
    rw [hs1]
    have hs2 : applyOrKeep
        ({ a with available := a.available - amt, held := a.held + amt },
         alistInsert h tx (.disputed amt)) (.resolve c tx) =
        ({ a with available := a.available - amt + amt,
                  held := a.held + amt - amt },
         alistInsert (alistInsert h tx (.disputed amt)) tx (.deposited amt)) := by
      simp [applyOrKeep, hd2, Transaction.amount]
    rw [hs2]
    constructor
    · cases a with
      | mk cl av hd tot lk => simp [Account.mk.injEq]
    · exact alistFind_alistInsert_self _ tx _
  · norm_num [List.foldl, applyOrKeep, Account.apply, Account.new, alistFind,
      alistInsert, Transaction.is_deposited, Transaction.is_disputed,
      Transaction.amount]

/-- Witness for C7: the dispute/resolve round trip at a concrete account —
balance 1, record 123 deposited with amount 1 — returns to the original
fields and record status. -/
theorem resolve_undoes_dispute_witness :
    ({ client := 9, available := 1, held := 0, total := 1,
       locked := false } : Account).locked = false
    ∧ alistFind [(123, Transaction.deposited 1)] 123 = some (.deposited 1)
    ∧ ({ client := 9, available := 1, held := 0, total := 1,
         locked := false } : Account).available ≥ 1
    ∧ (applyOrKeep (applyOrKeep ({ client := 9, available := 1, held := 0, total := 1, locked := false }, [(123, .deposited 1)]) (.dispute 9 123)) (.resolve 9 123)).1
        = { client := 9, available := 1, held := 0, total := 1, locked := false }
    ∧ alistFind (applyOrKeep (applyOrKeep ({ client := 9, available := 1, held := 0, total := 1, locked := false }, [(123, .deposited 1)]) (.dispute 9 123)) (.resolve 9 123)).2 123
        = some (.deposited 1) := by
  refine ⟨rfl, by simp [alistFind], by norm_num, ?_, ?_⟩
  · exact (resolve_undoes_dispute.2.1
      { client := 9, available := 1, held := 0, total := 1, locked := false }
      [(123, .deposited 1)] 9 123 1 rfl (by simp [alistFind]) (by norm_num)).1
  · exact (resolve_undoes_dispute.2.1
      { client := 9, available := 1, held := 0, total := 1, locked := false }
      [(123, .deposited 1)] 9 123 1 rfl (by simp [alistFind]) (by norm_num)).2

/-! ## History-frame lemmas -/

/-- A withdraw message never changes the history component, whatever the
account state. -/
theorem applyOrKeep_withdraw_snd (a : Account) (h : TXHistory) (c tx : Nat)
    (amt : ℚ) : (applyOrKeep (a, h) (.withdraw c tx amt)).2 = h := by
  by_cases hl : a.locked = true
  · simp [applyOrKeep, apply_locked a h _ hl]
  · replace hl : a.locked = false := by simpa using hl
    by_cases hw : a.available < amt
    · simp [applyOrKeep, apply_withdraw_insufficient a h c tx amt hl hw]
    · simp [applyOrKeep, apply_withdraw_ok a h c tx amt hl hw]

/-- A transaction id that no deposit message mentions stays absent from the
history across one actor-loop step. -/
theorem applyOrKeep_preserves_absent (s : Account × TXHistory) (m : Message)
    (tx : Nat) (hm : m.is_deposit = true → m.transaction_id ≠ tx)
    (habs : alistFind s.2 tx = none) :
    alistFind (applyOrKeep s m).2 tx = none := by
  obtain ⟨a, h⟩ := s
  by_cases hl : a.locked = true
  · simpa [applyOrKeep, apply_locked a h m hl] using habs
  · replace hl : a.locked = false := by simpa using hl
    cases m with
    | deposit c tx' amt =>
      have hne : tx' ≠ tx := hm rfl
      simp only [applyOrKeep, apply_deposit a h c tx' amt hl]
      simpa [alistFind_alistInsert_ne h tx' tx _ hne] using habs
    | withdraw c tx' amt =>
      simpa [applyOrKeep_withdraw_snd a h c tx' amt] using habs
    | dispute c tx' =>
      by_cases htx : tx' = tx
      · subst htx
        simpa [applyOrKeep, apply_dispute_none a h c tx' hl habs] using habs
      · cases hf : alistFind h tx' with
        | none =>
          simpa [applyOrKeep, apply_dispute_none a h c tx' hl hf] using habs
        | some r =>
          by_cases hg : r.is_deposited = true ∧ a.available ≥ r.amount
          · simp only [applyOrKeep, apply_dispute_hit a h c tx' r hl hf hg.1 hg.2]
            simpa [alistFind_alistInsert_ne h tx' tx _ htx] using habs
          · simpa [applyOrKeep, apply_dispute_guard_fail a h c tx' r hl hf hg]
              using habs
    | resolve c tx' =>
      by_cases htx : tx' = tx
      · subst htx
        simpa [applyOrKeep, apply_resolve_none a h c tx' hl habs] using habs
      · cases hf : alistFind h tx' with
        | none =>
          simpa [applyOrKeep, apply_resolve_none a h c tx' hl hf] using habs
        | some r =>
          by_cases hd : r.is_disputed = true
          · simp only [applyOrKeep, apply_resolve_hit a h c tx' r hl hf hd]
            simpa [alistFind_alistInsert_ne h tx' tx _ htx] using habs
          · replace hd : r.is_disputed = false := by simpa using hd
            simpa [applyOrKeep, apply_resolve_guard_fail a h c tx' r hl hf hd]
              using habs
    | chargeback c tx' =>
      by_cases htx : tx' = tx
      · subst htx
        simpa [applyOrKeep, apply_chargeback_none a h c tx' hl habs] using habs
      · cases hf : alistFind h tx' with
        | none =>
          simpa [applyOrKeep, apply_chargeback_none a h c tx' hl hf] using habs
        | some r =>
          by_cases hd : r.is_disputed = true
          · simp only [applyOrKeep, apply_chargeback_hit a h c tx' r hl hf hd]
            simpa [alistFind_alistInsert_ne h tx' tx _ htx] using habs
          · replace hd : r.is_disputed = false := by simpa using hd
            simpa [applyOrKeep, apply_chargeback_guard_fail a h c tx' r hl hf hd]
              using habs

/-- Folding the actor loop over messages none of which deposits under `tx`
keeps `tx` absent from the history. -/
theorem foldl_preserves_absent (ms : List Message) (s : Account × TXHistory)
    (tx : Nat) (hms : ∀ m ∈ ms, m.is_deposit = true → m.transaction_id ≠ tx)
    (habs : alistFind s.2 tx = none) :
    alistFind (ms.foldl applyOrKeep s).2 tx = none := by
  induction ms generalizing s with
  | nil => exact habs
  | cons m rest ih =>
    exact ih (applyOrKeep s m) (fun m' hm' => hms m' (List.mem_cons_of_mem m hm'))
      (applyOrKeep_preserves_absent s m tx (hms m (List.mem_cons_self m rest)) habs)

/-- Dispute, resolve and chargeback are no-ops on a transaction id absent
from the history, whatever the account state. -/
theorem absent_tx_noop (a : Account) (h : TXHistory) (cl tx : Nat)
    (habs : alistFind h tx = none) :
    applyOrKeep (a, h) (.dispute cl tx) = (a, h)
    ∧ applyOrKeep (a, h) (.resolve cl tx) = (a, h)
    ∧ applyOrKeep (a, h) (.chargeback cl tx) = (a, h) := by
  by_cases hl : a.locked = true
  · exact ⟨by simp [applyOrKeep, apply_locked a h _ hl],
           by simp [applyOrKeep, apply_locked a h _ hl],
           by simp [applyOrKeep, apply_locked a h _ hl]⟩
  · replace hl : a.locked = false := by simpa using hl
    exact ⟨by simp [applyOrKeep, apply_dispute_none a h cl tx hl habs],
           by simp [applyOrKeep, apply_resolve_none a h cl tx hl habs],
           by simp [applyOrKeep, apply_chargeback_none a h cl tx hl habs]⟩

/-- C9: on an unlocked account, a second `Deposit` with an already used
transaction id overwrites the existing record without touching `held`: after
`Deposit(5, 1)`, `Dispute(5)`, `Deposit(5, 2)` on a fresh account, record 5 is
`Deposited(2)` while `held` still carries the disputed 1, and a subsequent
`Resolve(5)` or `Chargeback(5)` is a no-op. -/
theorem redeposit_overwrites_disputed_record :
    [Message.deposit 7 5 1, .dispute 7 5, .deposit 7 5 2].foldl applyOrKeep
        (Account.new 7, [])
      = ({ client := 7, available := 2, held := 1, total := 3, locked := false },
         [(5, .deposited 2)])
    ∧ applyOrKeep ({ client := 7, available := 2, held := 1, total := 3, locked := false }, [(5, .deposited 2)]) (.resolve 7 5)
      = ({ client := 7, available := 2, held := 1, total := 3, locked := false }, [(5, .deposited 2)])
    ∧ applyOrKeep ({ client := 7, available := 2, held := 1, total := 3, locked := false }, [(5, .deposited 2)]) (.chargeback 7 5)
      = ({ client := 7, available := 2, held := 1, total := 3, locked := false }, [(5, .deposited 2)]) := by
  refine ⟨?_, ?_, ?_⟩ <;>
    norm_num [List.foldl, applyOrKeep, Account.apply, Account.new, alistFind,
      alistInsert, Transaction.is_deposited, Transaction.is_disputed,
      Transaction.amount]

/-- C10: a `Withdraw` never inserts into or modifies the transaction history;
hence in any history built by folding the actor loop from a fresh account, a
transaction id never used by a deposit has no record, and a dispute, resolve
or chargeback naming it is a no-op. -/
theorem withdraw_never_touches_history :
    (∀ (a : Account) (h : TXHistory) (c tx : Nat) (amt : ℚ),
        (applyOrKeep (a, h) (.withdraw c tx amt)).2 = h)
    ∧ (∀ (c : Nat) (ms : List Message) (tx : Nat),
        (∀ m ∈ ms, m.is_deposit = true → m.transaction_id ≠ tx) →
        alistFind (ms.foldl applyOrKeep (Account.new c, [])).2 tx = none)
    ∧ (∀ (a : Account) (h : TXHistory) (cl tx : Nat), alistFind h tx = none →
        applyOrKeep (a, h) (.dispute cl tx) = (a, h)
        ∧ applyOrKeep (a, h) (.resolve cl tx) = (a, h)
        ∧ applyOrKeep (a, h) (.chargeback cl tx) = (a, h)) :=
  ⟨fun a h c tx amt => applyOrKeep_withdraw_snd a h c tx amt,
   fun c ms tx hms => foldl_preserves_absent ms (Account.new c, []) tx hms rfl,
   fun a h cl tx habs => absent_tx_noop a h cl tx habs⟩

/-- Witness for C10: after a deposit under tx 10 and a withdrawal under
tx 20, the history has no record for 20, and dispute/resolve/chargeback on
tx 20 are no-ops. -/
theorem withdraw_never_touches_history_witness :
    (∀ m ∈ [Message.deposit 1 10 5, .withdraw 1 20 2],
        m.is_deposit = true → m.transaction_id ≠ 20)
    ∧ alistFind ([Message.deposit 1 10 5, .withdraw 1 20 2].foldl applyOrKeep
        (Account.new 1, [])).2 20 = none
    ∧ (alistFind ([(10, Transaction.deposited 5)] : TXHistory) 20 = none
      ∧ applyOrKeep ({ client := 1, available := 3, held := 0, total := 3, locked := false }, [(10, .deposited 5)]) (.dispute 1 20)
          = ({ client := 1, available := 3, held := 0, total := 3, locked := false }, [(10, .deposited 5)])
      ∧ applyOrKeep ({ client := 1, available := 3, held := 0, total := 3, locked := false }, [(10, .deposited 5)]) (.resolve 1 20)
          = ({ client := 1, available := 3, held := 0, total := 3, locked := false }, [(10, .deposited 5)])
      ∧ applyOrKeep ({ client := 1, available := 3, held := 0, total := 3, locked := false }, [(10, .deposited 5)]) (.chargeback 1 20)
          = ({ client := 1, available := 3, held := 0, total := 3, locked := false }, [(10, .deposited 5)])) := by
  have hms : ∀ m ∈ [Message.deposit 1 10 5, .withdraw 1 20 2],
      m.is_deposit = true → m.transaction_id ≠ 20 := by
    intro m hm
    simp only [List.mem_cons, List.not_mem_nil, or_false] at hm
    rcases hm with rfl | rfl
    · intro _
      decide
    · intro hfalse
      simp [Message.is_deposit] at hfalse
  have habs : alistFind ([(10, Transaction.deposited 5)] : TXHistory) 20 = none := by
    simp [alistFind]
  exact ⟨hms, withdraw_never_touches_history.2.1 1 _ 20 hms,
    habs, (withdraw_never_touches_history.2.2
      { client := 1, available := 3, held := 0, total := 3, locked := false }
      [(10, .deposited 5)] 1 20 habs).1,
    (withdraw_never_touches_history.2.2
      { client := 1, available := 3, held := 0, total := 3, locked := false }
      [(10, .deposited 5)] 1 20 habs).2.1,
    (withdraw_never_touches_history.2.2
      { client := 1, available := 3, held := 0, total := 3, locked := false }
      [(10, .deposited 5)] 1 20 habs).2.2⟩

/-! ## Router lemmas -/

/-- The per-client pipeline does nothing on an empty subsequence. -/
theorem clientRun_nil (c : Nat) (s : Option ClientState) : clientRun c s [] = s := by
  cases s <;> rfl

/-- Running the per-client pipeline from an existing actor state is exactly a
left fold of the actor loop. -/
theorem clientRun_some (c : Nat) (ms : List Message) (s : ClientState) :
    clientRun c (some s) ms = some (ms.foldl applyOrKeep s) := by
  induction ms generalizing s with
  | nil => rfl
  | cons m rest ih =>
    rw [List.foldl_cons]
    show clientRun c (some (applyOrKeep s m)) rest = _
    exact ih (applyOrKeep s m)

/-- Running the per-client pipeline from no actor state agrees with
`clientFold`: leading non-deposits are dropped, and from the first deposit on
the messages are folded over a fresh account. -/
theorem clientRun_none_eq_clientFold (c : Nat) (ms : List Message) :
    clientRun c none ms = clientFold c ms := by
  induction ms with
  | nil => rfl
  | cons m rest ih =>
    by_cases hdep : m.is_deposit = true
    · rw [show clientRun c none (m :: rest)
          = clientRun c (some (applyOrKeep (Account.new c, ([] : TXHistory)) m)) rest
        from by simp [clientRun, hdep]]
      rw [clientRun_some]
      unfold clientFold
      rw [List.dropWhile_cons]
      simp [hdep]
    · replace hdep : m.is_deposit = false := by simpa using hdep
      rw [show clientRun c none (m :: rest) = clientRun c none rest
        from by simp [clientRun, hdep]]
      rw [ih]
      unfold clientFold
      rw [List.dropWhile_cons]
      simp [hdep]

/-- A router iteration for one client's message leaves every other client's
directory entry untouched. -/
theorem routerStep_preserves_other (d : List (Nat × ClientState)) (m : Message)
    (c : Nat) (hne : m.client_id ≠ c) :
    alistFind (routerStep d m) c = alistFind d c := by
  unfold routerStep
  cases hfd : alistFind d m.client_id with
  | none =>
    by_cases hdep : should_create_account m = true
    · simp only [hdep, if_true]
      exact alistFind_alistInsert_ne d m.client_id c _ hne
    · replace hdep : should_create_account m = false := by simpa using hdep
      simp [hdep]
  | some s => exact alistFind_alistInsert_ne d m.client_id c _ hne

/-- The directory produced by routing a message stream, read at client `c`,
equals the per-client pipeline run over `c`'s own subsequence. -/
theorem routerRun_lookup (ms : List Message) (d : List (Nat × ClientState))
    (c : Nat) :
    alistFind (ms.foldl routerStep d) c =
      clientRun c (alistFind d c) (ms.filter (fun m => m.client_id == c)) := by
  induction ms generalizing d with
  | nil => rw [List.foldl_nil, List.filter_nil, clientRun_nil]
  | cons m rest ih =>
    rw [List.foldl_cons, List.filter_cons]
    by_cases hc : m.client_id = c
    · subst hc
      simp only [beq_self_eq_true, if_true]
      cases hfd : alistFind d m.client_id with
      | none =>
        by_cases hdep : m.is_deposit = true
        · have hstep : routerStep d m = alistInsert d m.client_id
              (applyOrKeep (Account.new m.client_id, ([] : TXHistory)) m) := by
            simp [routerStep, hfd, should_create_account, hdep]
          rw [hstep, ih, alistFind_alistInsert_self]
          simp [clientRun, hdep]
        · replace hdep : m.is_deposit = false := by simpa using hdep
          have hstep : routerStep d m = d := by
            simp [routerStep, hfd, should_create_account, hdep]
          rw [hstep, ih, hfd]
          simp [clientRun, hdep]
      | some s =>
        have hstep : routerStep d m = alistInsert d m.client_id (applyOrKeep s m) := by
          simp [routerStep, hfd]
        rw [hstep, ih, alistFind_alistInsert_self]
        simp [clientRun]
    · have hbeq : (m.client_id == c) = false := by simp [hc]
      rw [hbeq]
      simp only [Bool.false_eq_true, if_false]
      rw [ih (routerStep d m), routerStep_preserves_other d m c hc]

/-- C2: the final state the router-and-actor system produces for each client
is the sequential left-fold of the actor loop over that client's own message
subsequence (in original relative order, from a fresh zero-balance account at
the client's first deposit), and it depends only on that subsequence — not on
how other clients' messages are interleaved. -/
theorem router_refines_per_client_fold :
    (∀ (msgs : List Message) (c : Nat),
        alistFind (routerRun msgs) c =
          clientFold c (msgs.filter (fun m => m.client_id == c)))
    ∧ ∀ (msgs1 msgs2 : List Message) (c : Nat),
        msgs1.filter (fun m => m.client_id == c)
          = msgs2.filter (fun m => m.client_id == c) →
        alistFind (routerRun msgs1) c = alistFind (routerRun msgs2) c := by
  have hmain : ∀ (msgs : List Message) (c : Nat),
      alistFind (routerRun msgs) c =
        clientFold c (msgs.filter (fun m => m.client_id == c)) := by
    intro msgs c
    rw [routerRun, routerRun_lookup msgs [] c]
    exact clientRun_none_eq_clientFold c _
  exact ⟨hmain, fun msgs1 msgs2 c hfilter => by
    rw [hmain msgs1 c, hmain msgs2 c, hfilter]⟩

/-- Witness for C2: two interleavings of the same two clients' deposits give
client 1 the same final state. -/
theorem router_refines_per_client_fold_witness :
    ([Message.deposit 1 10 5, .deposit 2 20 7].filter (fun m => m.client_id == 1)
      = [Message.deposit 2 20 7, .deposit 1 10 5].filter (fun m => m.client_id == 1))
    ∧ alistFind (routerRun [Message.deposit 1 10 5, .deposit 2 20 7]) 1
      = alistFind (routerRun [Message.deposit 2 20 7, .deposit 1 10 5]) 1 :=
  ⟨rfl, router_refines_per_client_fold.2
    [Message.deposit 1 10 5, .deposit 2 20 7]
    [Message.deposit 2 20 7, .deposit 1 10 5] 1 rfl⟩

/-- C8: the router drops a non-deposit message for a client with no directory
entry, leaving the directory (and so every existing account) unchanged; a
deposit for an unknown client registers a fresh zero-balance unlocked account
and forwards the deposit to it; `should_create_account` is true exactly for
deposits. -/
theorem router_creates_accounts_only_on_deposit :
    (∀ m : Message, should_create_account m = m.is_deposit)
    ∧ (∀ c : Nat, Account.new c =
        { client := c, available := 0, held := 0, total := 0, locked := false })
    ∧ (∀ (d : List (Nat × ClientState)) (m : Message),
        alistFind d m.client_id = none → m.is_deposit = false →
        routerStep d m = d)
    ∧ (∀ (d : List (Nat × ClientState)) (m : Message),
        alistFind d m.client_id = none → m.is_deposit = true →
        routerStep d m = alistInsert d m.client_id
          (applyOrKeep (Account.new m.client_id, ([] : TXHistory)) m)) := by
  refine ⟨fun m => rfl, fun c => rfl, ?_, ?_⟩
  · intro d m hfd hdep
    simp [routerStep, hfd, should_create_account, hdep]
  · intro d m hfd hdep
    simp [routerStep, hfd, should_create_account, hdep]

/-- Witness for C8: on an empty directory, a dispute for client 3 is dropped
while a deposit for client 3 registers a freshly created account holding the
deposited amount. -/
theorem router_creates_accounts_only_on_deposit_witness :
    alistFind ([] : List (Nat × ClientState)) (Message.dispute 3 9).client_id = none
    ∧ (Message.dispute 3 9).is_deposit = false
    ∧ routerStep [] (.dispute 3 9) = []
    ∧ alistFind ([] : List (Nat × ClientState)) (Message.deposit 3 9 5).client_id = none
    ∧ (Message.deposit 3 9 5).is_deposit = true
    ∧ routerStep [] (.deposit 3 9 5) = alistInsert []
        (Message.deposit 3 9 5).client_id
        (applyOrKeep (Account.new (Message.deposit 3 9 5).client_id,
          ([] : TXHistory)) (.deposit 3 9 5)) :=
  ⟨rfl, rfl,
   router_creates_accounts_only_on_deposit.2.2.1 [] (.dispute 3 9) rfl rfl,
   rfl, rfl,
   router_creates_accounts_only_on_deposit.2.2.2 [] (.deposit 3 9 5) rfl rfl⟩
